import Mathlib

/-!
Shallow embedding of the ant-colony simulator core (config.py, core/nest.py,
core/pheromone.py, core/colony.py, core/ant.py, core/environment.py,
ml/neural_network.py, ml/agent.py, ml/evolution.py).

Python floats are embedded as exact rationals; numpy arrays as lists of
lists of rationals (or as functions on grid indices for the pheromone
grids); randomness is passed in explicitly as oracle parameters.
-/

namespace AntColony

-- Constants from config.py (floats as exact rationals).
def WORLD_WIDTH : ℕ := 1200
def WORLD_HEIGHT : ℕ := 800
def NEST_RADIUS : ℚ := 50
def INITIAL_ENERGY : ℚ := 500
def MAX_COLONY_SIZE : ℕ := 500
def ANT_SIZE : ℚ := 8
def ANT_ENERGY_FROM_FOOD : ℚ := 100
def FOOD_SIZE : ℚ := 5
def FOOD_ENERGY : ℚ := 50
def PHEROMONE_EVAPORATION_RATE : ℚ := 199/200
def PHEROMONE_DIFFUSION : ℚ := 1/20

/-- 2D vector (utils/vector.py, Vector2D). -/
structure Vec where
  x : ℚ
  y : ℚ
deriving DecidableEq, Repr, Inhabited

def Vec.sub (a b : Vec) : Vec := ⟨a.x - b.x, a.y - b.y⟩

instance : Sub Vec := ⟨Vec.sub⟩

/-- Squared magnitude. The source compares `magnitude() < r` with `r ≥ 0`;
we embed the equivalent squared comparison `magSq v < r*r` so as to stay in
exact rational arithmetic (no square roots). -/
def Vec.magSq (v : Vec) : ℚ := v.x * v.x + v.y * v.y

/-- `a` is strictly closer than `r` to `b` (squared form of
`(a - b).magnitude() < r`, equivalent for `r ≥ 0`). -/
def distLt (a b : Vec) (r : ℚ) : Prop := (a - b).magSq < r * r

instance (a b : Vec) (r : ℚ) : Decidable (distLt a b r) := by
  unfold distLt; infer_instance

/-- One nest chamber (core/nest.py: entry of `Nest.chambers`). -/
structure Chamber where
  size : ℕ
  capacity : ℕ
deriving DecidableEq, Repr, Inhabited

/-- Nest state (core/nest.py, `Nest`). -/
structure Nest where
  position : Vec
  radius : ℚ
  food_stored : ℚ
  structure_level : ℕ
  food_chamber : Chamber
  nursery_chamber : Chamber
  queen_chamber : Chamber
deriving DecidableEq, Repr, Inhabited

/-- `Nest.__init__`: fresh nest at `(x, y)`. -/
def Nest.init (x y radius : ℚ) : Nest :=
  { position := ⟨x, y⟩
    radius := radius
    food_stored := 0
    structure_level := 1
    food_chamber := ⟨1, 100⟩
    nursery_chamber := ⟨1, 20⟩
    queen_chamber := ⟨1, 1⟩ }

/-- Chamber growth step from `Nest._check_upgrades`: `size += 1` then
`capacity = size * capacity` (with the already incremented size). -/
def Chamber.upgrade (c : Chamber) : Chamber :=
  let s := c.size + 1
  { size := s, capacity := s * c.capacity }

/-- `Nest._check_upgrades`: a single `if` (not a loop) — at most one upgrade
per call. -/
def Nest.check_upgrades (n : Nest) : Nest :=
  if (n.structure_level * 100 : ℚ) ≤ n.food_stored then
    { n with
      food_stored := n.food_stored - n.structure_level * 100
      structure_level := n.structure_level + 1
      radius := n.radius + 5
      food_chamber := n.food_chamber.upgrade
      nursery_chamber := n.nursery_chamber.upgrade
      queen_chamber := n.queen_chamber.upgrade }
  else n

/-- `Nest.add_food`: add to storage, then run the upgrade check once. -/
def Nest.add_food (n : Nest) (amount : ℚ) : Nest :=
  Nest.check_upgrades { n with food_stored := n.food_stored + amount }

-- Pheromone grid (core/pheromone.py).

/-- `PheromoneSystem.__init__`: `self.grid_width = width // resolution + 1`. -/
def gridWidth (width resolution : ℕ) : ℕ := width / resolution + 1

/-- `PheromoneSystem.__init__`: `self.grid_height = height // resolution + 1`. -/
def gridHeight (height resolution : ℕ) : ℕ := height / resolution + 1

/-- Ceiling division `⌈a / b⌉`, the dimension formula stated by the spec
("grid dimensions = ceil(world size / resolution)"); written from the
spec's words, for comparison against the source formula. -/
def specCeilDiv (a b : ℕ) : ℕ := (a + b - 1) / b

/-- Pheromone field state (core/pheromone.py, `PheromoneSystem`). The two
channel grids (`self.grids` dict keys `food` and `home`) are embedded as
functions on grid indices, meaningful on
`[0, grid_width) × [0, grid_height)`. -/
structure PheromoneSystem where
  width : ℕ
  height : ℕ
  resolution : ℕ
  food : ℕ → ℕ → ℚ
  home : ℕ → ℕ → ℚ

/-- `PheromoneSystem.__init__` with zeroed grids. -/
def PheromoneSystem.init (width height resolution : ℕ) : PheromoneSystem :=
  { width := width
    height := height
    resolution := resolution
    food := fun _ _ => 0
    home := fun _ _ => 0 }

def PheromoneSystem.grid_width (p : PheromoneSystem) : ℕ :=
  gridWidth p.width p.resolution

def PheromoneSystem.grid_height (p : PheromoneSystem) : ℕ :=
  gridHeight p.height p.resolution

/-- One channel pass of `PheromoneSystem.update`: first evaporation
(`grid *= PHEROMONE_EVAPORATION_RATE`), then — when the diffusion constant
is positive — every interior cell `i ∈ [1, W-2]`, `j ∈ [1, H-2]` of the
evaporated grid becomes
`(1-d)·g[i,j] + d·mean(g[i-1,j], g[i+1,j], g[i,j-1], g[i,j+1])`;
border cells keep their evaporated value. -/
def channelUpdate (W H : ℕ) (g : ℕ → ℕ → ℚ) (i j : ℕ) : ℚ :=
  let e : ℕ → ℕ → ℚ := fun a b => PHEROMONE_EVAPORATION_RATE * g a b
  if 0 < PHEROMONE_DIFFUSION then
    if 1 ≤ i ∧ i < W - 1 ∧ 1 ≤ j ∧ j < H - 1 then
      (1 - PHEROMONE_DIFFUSION) * e i j +
        PHEROMONE_DIFFUSION * ((e (i-1) j + e (i+1) j + e i (j-1) + e i (j+1)) / 4)
    else e i j
  else e i j

/-- `PheromoneSystem.update`: the evaporation+diffusion pass, applied to
every channel in `self.grids`. -/
def PheromoneSystem.update (p : PheromoneSystem) : PheromoneSystem :=
  { p with
    food := channelUpdate p.grid_width p.grid_height p.food
    home := channelUpdate p.grid_width p.grid_height p.home }

-- Environment and agents (core/food.py, core/environment.py, core/ant.py).

/-- A food source (core/food.py). Python removes foods from the environment
list by object identity; the embedding tags each food with an id and treats
distinct objects as having distinct ids, so identity becomes id-equality. -/
structure Food where
  id : ℕ
  position : Vec
  energy : ℚ
deriving DecidableEq, Repr, Inhabited

/-- Environment state (core/environment.py) restricted to the field the
embedded operations touch: the food-source list. -/
structure Env where
  food_sources : List Food
deriving DecidableEq, Repr, Inhabited

/-- `Environment.remove_food`: `if food in self.food_sources:
self.food_sources.remove(food)` — removes the first occurrence, and is a
no-op when the food is absent. -/
def Env.remove_food (e : Env) (f : Food) : Env :=
  if e.food_sources.any (fun g => g.id == f.id) then
    { e with food_sources := e.food_sources.eraseP (fun g => g.id == f.id) }
  else e

/-- Ant state (core/ant.py) projected to the fields read by the embedded
colony and food-handling operations. -/
structure Ant where
  position : Vec
  carrying_food : Bool
  food_item : Option Food
  energy : ℚ
  age : ℕ
  alive : Bool
deriving DecidableEq, Repr, Inhabited

/-- Nest and colony container (core/colony.py, `Colony`). -/
structure Colony where
  nest : Nest
  ants : List Ant
  food_collected : ℚ
  food_delivered : ℕ
  total_steps : ℕ
  generation : ℕ
  ants_born : ℕ
  ants_died : ℕ
deriving DecidableEq, Repr, Inhabited

/-- `Ant.__init__` with no explicit position or brain: a fresh live ant at
the nest. -/
def Ant.init (c : Colony) : Ant :=
  { position := c.nest.position
    carrying_food := false
    food_item := none
    energy := INITIAL_ENERGY
    age := 0
    alive := true }

/-- `Colony.process_dead_ants`: keep the living ants, count the reaped. -/
def Colony.process_dead_ants (c : Colony) : Colony :=
  let survivors := c.ants.filter (·.alive)
  { c with ants := survivors, ants_died := c.ants_died + (c.ants.length - survivors.length) }

/-- `Colony.spawn_new_ants`: when `food_collected > ANT_ENERGY_FROM_FOOD`
(strict) and the roster is below `MAX_COLONY_SIZE`, pay the spawn cost and
append one fresh default-brained ant. At most one ant per call. -/
def Colony.spawn_new_ants (c : Colony) : Colony :=
  if ANT_ENERGY_FROM_FOOD < c.food_collected ∧ c.ants.length < MAX_COLONY_SIZE then
    let c' := { c with food_collected := c.food_collected - ANT_ENERGY_FROM_FOOD }
    { c' with ants := c'.ants ++ [Ant.init c'], ants_born := c'.ants_born + 1 }
  else c

/-- `Colony.add_food`: credit the store and the delivered counter. -/
def Colony.add_food (c : Colony) (amount : ℚ) : Colony :=
  { c with food_collected := c.food_collected + amount, food_delivered := c.food_delivered + 1 }

/-- `Colony.update`, with the per-ant `ant.update()` phase abstracted by
oracles: `antUpd` is the net effect of sense/think/act on one living ant's
own fields, and `foodDelta`/`deliveries` are the cumulative
`colony.add_food` credits made by the living ants during the phase.
`ant.update` never changes the roster list `colony.ants` itself, which is
what the mapped shape of the phase records. -/
def Colony.update (antUpd : Ant → Ant) (foodDelta : ℚ) (deliveries : ℕ) (c : Colony) : Colony :=
  let c1 := { c with
    ants := c.ants.map (fun (a : Ant) => if a.alive then antUpd a else a)
    food_collected := c.food_collected + foodDelta
    food_delivered := c.food_delivered + deliveries }
  let c2 := c1.process_dead_ants
  let c3 := c2.spawn_new_ants
  { c3 with total_steps := c3.total_steps + 1 }

/-- Decoded boolean `action_outputs[3] > 0.5` from `Ant.apply_action`. -/
def pickupFlag (action_outputs : List ℚ) : Bool :=
  decide ((1 : ℚ)/2 < action_outputs.getD 3 0)

/-- The pickup scan of `Ant.apply_action`: the first food source of the
environment list strictly within `ANT_SIZE + FOOD_SIZE` of position `p`
(the loop with `break`). -/
def firstFoodInReach (e : Env) (p : Vec) : Option Food :=
  e.food_sources.find? fun f => decide (distLt p f.position (ANT_SIZE + FOOD_SIZE))

/-- Food pickup/delivery block of `Ant.apply_action` (core/ant.py lines
176-193), taken after the movement update, acting on the ant `a`, its
colony `c` and the environment `e`. Delivery: inside the nest radius a
carrying ant clears its carry state, credits the colony store with
`FOOD_ENERGY` and removes its held food from the environment. Pickup: a
non-carrying ant with the pickup flag set takes the first food source
within `ANT_SIZE + FOOD_SIZE`, setting only its own carry fields. -/
def Ant.handle_food (a : Ant) (pickup_food : Bool) (c : Colony) (e : Env) :
    Ant × Colony × Env :=
  if a.carrying_food then
    if distLt a.position c.nest.position NEST_RADIUS then
      let a' := { a with carrying_food := false, food_item := none }
      let c' := c.add_food FOOD_ENERGY
      let e' := match a.food_item with
        | some f => e.remove_food f
        | none => e
      (a', c', e')
    else (a, c, e)
  else if pickup_food then
    match firstFoodInReach e a.position with
    | some f => ({ a with carrying_food := true, food_item := some f }, c, e)
    | none => (a, c, e)
  else (a, c, e)

-- Neural network (ml/neural_network.py).

/-- Neural network state. numpy arrays become lists of lists of rationals:
`weights[l]` has shape `(sizes[l], sizes[l+1])` (rows indexed by fan-in,
columns by fan-out) and `biases[l]` has length `sizes[l+1]`. -/
structure NeuralNetwork where
  input_size : ℕ
  hidden_sizes : List ℕ
  output_size : ℕ
  weights : List (List (List ℚ))
  biases : List (List ℚ)
deriving DecidableEq, Repr, Inhabited

/-- `layer_sizes = [input_size] + hidden_sizes + [output_size]`. -/
def layerSizes (input_size : ℕ) (hidden_sizes : List ℕ) (output_size : ℕ) : List ℕ :=
  input_size :: hidden_sizes ++ [output_size]

/-- `NeuralNetwork.__init__`, with the scaled gaussian draws supplied by the
oracle `rand l r c`. Biases start at zero. -/
def NeuralNetwork.init (input_size : ℕ) (hidden_sizes : List ℕ) (output_size : ℕ)
    (rand : ℕ → ℕ → ℕ → ℚ) : NeuralNetwork :=
  let sizes := layerSizes input_size hidden_sizes output_size
  { input_size := input_size
    hidden_sizes := hidden_sizes
    output_size := output_size
    weights := (List.range (sizes.length - 1)).map fun l =>
      (List.range (sizes.getD l 0)).map fun r =>
        (List.range (sizes.getD (l+1) 0)).map fun c => rand l r c
    biases := (List.range (sizes.length - 1)).map fun l =>
      List.replicate (sizes.getD (l+1) 0) 0 }

/-- Elementwise `np.where(mask, a, b)` on vectors of one shape. -/
def npWhere1 : List Bool → List ℚ → List ℚ → List ℚ
  | m :: ms, x :: xs, y :: ys => (if m then x else y) :: npWhere1 ms xs ys
  | _, _, _ => []

/-- Elementwise `np.where(mask, A, B)` on matrices of one shape. -/
def npWhere2 : List (List Bool) → List (List ℚ) → List (List ℚ) → List (List ℚ)
  | m :: ms, x :: xs, y :: ys => npWhere1 m x y :: npWhere2 ms xs ys
  | _, _, _ => []

/-- Boolean mask vector of the same length as `a`, entry `i` being `bit i`
(embeds `np.random.random(shape) < rate` on a 1-D array). -/
def maskOfLen (bit : ℕ → Bool) (a : List ℚ) : List Bool :=
  (List.range a.length).map bit

/-- Boolean mask array of the same shape as `A`, entry `(r, c)` being
`bit r c` (embeds `np.random.random(A.shape) < rate` on a 2-D array). -/
def maskOfShape (bit : ℕ → ℕ → Bool) (A : List (List ℚ)) : List (List Bool) :=
  (List.range A.length).map fun r => maskOfLen (bit r) (A.getD r [])

/-- `NeuralNetwork.crossover`: build a fresh child of `self`'s declared
topology (its discarded random initial weights given by `rand`), then for
each layer `i < len(self.weights)` overwrite the child's weight matrix and
bias vector with the elementwise parent mix: a true mask bit selects
`self`'s entry, a false one selects `other`'s. -/
def NeuralNetwork.crossover (self other : NeuralNetwork)
    (wbit : ℕ → ℕ → ℕ → Bool) (bbit : ℕ → ℕ → Bool)
    (rand : ℕ → ℕ → ℕ → ℚ) : NeuralNetwork :=
  let child := NeuralNetwork.init self.input_size self.hidden_sizes self.output_size rand
  { child with
    weights := (List.range child.weights.length).map fun i =>
      if i < self.weights.length then
        npWhere2 (maskOfShape (wbit i) (self.weights.getD i []))
          (self.weights.getD i []) (other.weights.getD i [])
      else child.weights.getD i []
    biases := (List.range child.biases.length).map fun i =>
      if i < self.weights.length then
        npWhere1 (maskOfLen (bbit i) (self.biases.getD i []))
          (self.biases.getD i []) (other.biases.getD i [])
      else child.biases.getD i [] }

/-- `np.dot(x, W)` for a vector `x` and a matrix `W` whose rows are indexed
by the input coordinate: component `c` is `Σ_r x[r] * W[r][c]`. -/
def dotXW (x : List ℚ) (W : List (List ℚ)) : List ℚ :=
  (List.range (W.headD []).length).map fun c =>
    ((x.zip W).map fun xr => xr.1 * xr.2.getD c 0).sum

def vecAdd (a b : List ℚ) : List ℚ := List.zipWith (· + ·) a b

/-- `np.maximum(0, z)`. -/
def relu (z : List ℚ) : List ℚ := z.map (fun v => max 0 v)

/-- Layer loop of `NeuralNetwork.forward`: ReLU after every transition
except the last, which stays linear. -/
def forwardAux : List (List (List ℚ)) → List (List ℚ) → List ℚ → List ℚ
  | [], _, x => x
  | [W], b :: _, x => vecAdd (dotXW x W) b
  | W :: ws, b :: bs, x => forwardAux ws bs (relu (vecAdd (dotXW x W) b))
  | _ :: _, [], x => x

/-- `NeuralNetwork.forward` (the cached activations are write-only state in
the source and are dropped here). -/
def NeuralNetwork.forward (n : NeuralNetwork) (inputs : List ℚ) : List ℚ :=
  forwardAux n.weights n.biases inputs

/-- `NeuralNetwork.get_weights`: export the weight and bias arrays
(`tolist` is the identity in the rational embedding). This is exactly the
payload `save` pickles to disk and `load` reads back. -/
def NeuralNetwork.get_weights (n : NeuralNetwork) :
    List (List (List ℚ)) × List (List ℚ) :=
  (n.weights, n.biases)

/-- `NeuralNetwork.set_weights`: install the arrays from a payload. The
source performs no shape validation whatsoever. -/
def NeuralNetwork.set_weights (n : NeuralNetwork)
    (wd : List (List (List ℚ)) × List (List ℚ)) : NeuralNetwork :=
  { n with weights := wd.1, biases := wd.2 }

/-- Input-size adjustment inside `MLAgent.process` (ml/agent.py lines
60-69): on a length mismatch, silently pad the input with zeros or
truncate it to the network's expected input size. -/
def adjust_inputs (input_size : ℕ) (inputs : List ℚ) : List ℚ :=
  if inputs.length ≠ input_size then
    if inputs.length < input_size then
      inputs ++ List.replicate (input_size - inputs.length) 0
    else inputs.take input_size
  else inputs

-- Evolution (ml/evolution.py).

/-- Scan step for `np.argmax`: strict improvement keeps the first index of
the maximum. -/
def argmaxAux : List ℚ → ℕ → ℕ → ℚ → ℕ
  | [], _, bi, _ => bi
  | v :: vs, i, bi, bv =>
      if bv < v then argmaxAux vs (i+1) i v else argmaxAux vs (i+1) bi bv

/-- `np.argmax`: first index attaining the maximum. -/
def npArgmax : List ℚ → ℕ
  | [] => 0
  | v :: vs => argmaxAux vs 1 0 v

/-- One tournament of `EvolutionManager.select_parents.select_one`, with the
sampled index list (`np.random.choice(len(population), tournament_size,
replace=False)`) passed in explicitly: the winner index is
`tournament_indices[np.argmax(tournament_fitnesses)]`. -/
def tournamentWinnerIdx (fitnesses : List ℚ) (tournament_indices : List ℕ) : ℕ :=
  tournament_indices.getD (npArgmax (tournament_indices.map fun i => fitnesses.getD i 0)) 0

/-- `select_one`: the population member at the tournament winner index. -/
def select_one (population : List Ant) (fitnesses : List ℚ)
    (tournament_indices : List ℕ) : Ant :=
  population.getD (tournamentWinnerIdx fitnesses tournament_indices) default

/-- `EvolutionManager.evaluate_fitness` via `Ant.get_fitness`: the owning
colony's delivered-food count (identical for every ant of the colony). -/
def evaluate_fitness (c : Colony) (_a : Ant) : ℚ := c.food_delivered

/-- `EvolutionManager.evolve_generation`, restricted to its effect on the
colony (the manager's best-agent bookkeeping and the printing are
dropped): a no-op below 10 ants; otherwise keep the
`max(1, int(0.1*n))` fittest ants (`np.argsort` ascending is embedded as a
stable sort of the index list, and `int(0.1*n)` as `n / 10`, which agrees
with the float computation for every population size reachable under
`MAX_COLONY_SIZE`), then fill with offspring until the new roster reaches
the old size. Offspring construction (parent selection, crossover,
mutation randomness) is abstracted by the stream `offspring`. -/
def evolve_generation (offspring : ℕ → Ant) (c : Colony) : Colony :=
  if c.ants.length < 10 then c
  else
    let n := c.ants.length
    let fitnesses := c.ants.map (evaluate_fitness c)
    let elitism_count := max 1 (n / 10)
    let order := (List.range n).mergeSort fun i j =>
      decide (fitnesses.getD i 0 ≤ fitnesses.getD j 0)
    let elite := (order.drop (n - elitism_count)).map fun i => c.ants.getD i default
    let rest := (List.range (n - elite.length)).map offspring
    { c with ants := elite ++ rest, generation := c.generation + 1 }

/-- Shape discipline the `NeuralNetwork.__init__` constructor establishes
and every array-walking method assumes: one weight matrix and one bias
vector per layer transition, with the dimensions dictated by
`layerSizes`. -/
def NeuralNetwork.wf (n : NeuralNetwork) : Prop :=
  let sizes := layerSizes n.input_size n.hidden_sizes n.output_size
  n.weights.length = sizes.length - 1 ∧
  n.biases.length = sizes.length - 1 ∧
  (∀ l < n.weights.length, (n.weights.getD l []).length = sizes.getD l 0) ∧
  (∀ l < n.weights.length, ∀ r < (n.weights.getD l []).length,
      ((n.weights.getD l []).getD r []).length = sizes.getD (l+1) 0) ∧
  (∀ l < n.biases.length, (n.biases.getD l []).length = sizes.getD (l+1) 0)

/-- Entry `(l, r, c)` of the weight arrays (out-of-range reads default to
zero, matching an absent entry). -/
def wElt (n : NeuralNetwork) (l r c : ℕ) : ℚ :=
  ((n.weights.getD l []).getD r []).getD c 0

/-- Entry `(l, j)` of the bias arrays. -/
def bElt (n : NeuralNetwork) (l j : ℕ) : ℚ :=
  (n.biases.getD l []).getD j 0

-- Concrete fixtures used by witnesses and counterexamples.

/-- A nest at the world center with the default radius. -/
def nestEx : Nest := Nest.init 600 400 50

/-- An empty colony around `nestEx`. -/
def colonyEx : Colony :=
  { nest := nestEx
    ants := []
    food_collected := 0
    food_delivered := 0
    total_steps := 0
    generation := 0
    ants_born := 0
    ants_died := 0 }

/-- A colony of one live ant whose food store sits exactly at the spawn
cost. -/
def colonyAt100 : Colony :=
  { colonyEx with ants := [Ant.init colonyEx], food_collected := 100, ants_born := 1 }

/-- A channel grid holding 100 units in cell `(0, 1)` and nothing
elsewhere. -/
def pheroGridEx : ℕ → ℕ → ℚ := fun i j => if i = 0 ∧ j = 1 then 100 else 0

/-- A 4×4 pheromone field (world 30×30 at resolution 10) whose food channel
is `pheroGridEx`. -/
def pheroEx : PheromoneSystem :=
  { PheromoneSystem.init 30 30 10 with food := pheroGridEx }

/-- Parent network fixture: topology 2-[2]-1. -/
def netP : NeuralNetwork :=
  NeuralNetwork.init 2 [2] 1 fun l r c => (l : ℚ) + r + c

/-- Second parent fixture of the same topology, different weights. -/
def netQ : NeuralNetwork :=
  NeuralNetwork.init 2 [2] 1 fun l r c => (l : ℚ) + 2*r + 3*c + 10

/-- A food source sitting at the origin. -/
def foodEx : Food := { id := 0, position := ⟨0, 0⟩, energy := 50 }

/-- An environment holding exactly `foodEx`. -/
def envEx : Env := { food_sources := [foodEx] }

/-- A colony whose nest sits at the origin. -/
def colonyO : Colony := { colonyEx with nest := Nest.init 0 0 50 }

/-- A live non-carrying ant at the origin. -/
def antEx : Ant :=
  { position := ⟨0, 0⟩
    carrying_food := false
    food_item := none
    energy := 500
    age := 0
    alive := true }

-- Supporting lemmas (shared; none of these is a claim theorem).

@[simp] theorem Vec.sub_def (a b : Vec) :
    a - b = (⟨a.x - b.x, a.y - b.y⟩ : Vec) := rfl

theorem spawn_new_ants_length_le (c : Colony)
    (h : c.ants.length ≤ MAX_COLONY_SIZE) :
    c.spawn_new_ants.ants.length ≤ MAX_COLONY_SIZE := by
  unfold Colony.spawn_new_ants
  split
  · rename_i hcond
    have h2 := hcond.2
    simp only [List.length_append, List.length_cons, List.length_nil]
    omega
  · exact h

theorem process_dead_ants_length_le (c : Colony) :
    c.process_dead_ants.ants.length ≤ c.ants.length := by
  unfold Colony.process_dead_ants
  exact List.length_filter_le _ _

theorem evolve_generation_length (offspring : ℕ → Ant) (c : Colony) :
    (evolve_generation offspring c).ants.length = c.ants.length := by
  unfold evolve_generation
  split
  · rfl
  · rename_i h10
    simp only [List.length_append, List.length_map, List.length_drop,
      List.length_mergeSort, List.length_range]
    omega

theorem specCeilDiv_dvd (w r : ℕ) (hr : 0 < r) (hd : r ∣ w) :
    specCeilDiv w r = w / r := by
  obtain ⟨q, rfl⟩ := hd
  unfold specCeilDiv
  rcases Nat.eq_zero_or_pos q with hq | hq
  · subst hq
    have h0 : r * 0 + r - 1 = r - 1 := by omega
    rw [h0, Nat.div_eq_of_lt (by omega), Nat.mul_zero, Nat.zero_div]
  · have h1 : r * q + r - 1 = r * q + (r - 1) := by omega
    rw [h1, Nat.mul_add_div hr, Nat.div_eq_of_lt (show r - 1 < r by omega),
      Nat.mul_div_cancel_left q hr]
    omega

theorem specCeilDiv_not_dvd (w r : ℕ) (hr : 0 < r) (hnd : ¬ r ∣ w) :
    specCeilDiv w r = w / r + 1 := by
  have hs : w % r ≠ 0 := fun h => hnd (Nat.dvd_of_mod_eq_zero h)
  have hdm : r * (w / r) + w % r = w := Nat.div_add_mod w r
  have hlt : w % r < r := Nat.mod_lt _ hr
  have h2 : r * (w / r + 1) = r * (w / r) + r := by ring
  have h1 : w + r - 1 = r * (w / r + 1) + (w % r - 1) := by omega
  unfold specCeilDiv
  rw [h1, Nat.mul_add_div hr, Nat.div_eq_of_lt (show w % r - 1 < r by omega)]

-- C5 — nest upgrades.

/-- C5 counterexample: a single delivery of 300 food to a fresh nest funds
two upgrades, but `_check_upgrades` fires only once, so the post-state
still satisfies the upgrade threshold (200 stored at structure level 2). -/
theorem C5_counterexample :
    ¬ ((nestEx.add_food 300).food_stored <
        ((nestEx.add_food 300).structure_level : ℚ) * 100) := by
  norm_num [nestEx, Nest.init, Nest.add_food, Nest.check_upgrades]

/-- C5 (amended): `Nest.add_food` applies the upgrade rule at most once per
call — the source checks the threshold with a plain `if`, not a loop — so
the structure level rises by at most one per delivery; provided each
delivery adds at most 100 food, the post-state invariant
`food_stored < structure_level * 100` still holds. A single delivery
funding several upgrades leaves the threshold met (see the
counterexample). -/
theorem nest_add_food_single_upgrade (n : Nest) (amount : ℚ)
    (hinv : n.food_stored < (n.structure_level : ℚ) * 100)
    (hamt : amount ≤ 100) :
    (n.add_food amount).structure_level ≤ n.structure_level + 1 ∧
    (n.add_food amount).food_stored <
      ((n.add_food amount).structure_level : ℚ) * 100 := by
  unfold Nest.add_food Nest.check_upgrades
  split
  · rename_i hup
    refine ⟨by simp, ?_⟩
    have hnn : (0 : ℚ) ≤ (n.structure_level : ℚ) := Nat.cast_nonneg _
    simp only
    push_cast
    nlinarith
  · rename_i hup
    refine ⟨by simp, ?_⟩
    simp only
    exact lt_of_not_le hup

/-- Witness for the amended C5 at a concrete nest and delivery. -/
theorem nest_add_food_single_upgrade_witness :
    (nestEx.add_food 50).structure_level ≤ nestEx.structure_level + 1 ∧
    (nestEx.add_food 50).food_stored <
      ((nestEx.add_food 50).structure_level : ℚ) * 100 :=
  nest_add_food_single_upgrade nestEx 50 (by norm_num [nestEx, Nest.init])
    (by norm_num)

-- C7 — grid dimensions.

/-- C7 counterexample: at the source's own configuration (world 1200×800,
resolution 10) the constructed grid is 121×81 cells, not the
120×80 = ceil(size/resolution) the claim states. -/
theorem C7_counterexample :
    ((PheromoneSystem.init WORLD_WIDTH WORLD_HEIGHT 10).grid_width,
      (PheromoneSystem.init WORLD_WIDTH WORLD_HEIGHT 10).grid_height) ≠
    (specCeilDiv WORLD_WIDTH 10, specCeilDiv WORLD_HEIGHT 10) := by
  decide

/-- C7 (amended): for positive resolution the constructed grid has
dimensions `size / resolution + 1` (floor division plus one) in each axis.
This equals the spec's `ceil(size / resolution)` exactly when the
resolution does not divide the world size, and exceeds it by one when it
does. -/
theorem grid_dims (wd ht r : ℕ) (hr : 0 < r) :
    (PheromoneSystem.init wd ht r).grid_width = wd / r + 1 ∧
    (PheromoneSystem.init wd ht r).grid_height = ht / r + 1 ∧
    (¬ r ∣ wd → (PheromoneSystem.init wd ht r).grid_width = specCeilDiv wd r) ∧
    (r ∣ wd → (PheromoneSystem.init wd ht r).grid_width = specCeilDiv wd r + 1) ∧
    (¬ r ∣ ht → (PheromoneSystem.init wd ht r).grid_height = specCeilDiv ht r) ∧
    (r ∣ ht → (PheromoneSystem.init wd ht r).grid_height = specCeilDiv ht r + 1) := by
  refine ⟨rfl, rfl, ?_, ?_, ?_, ?_⟩
  · intro hnd
    rw [specCeilDiv_not_dvd wd r hr hnd]; rfl
  · intro hd
    rw [specCeilDiv_dvd wd r hr hd]; rfl
  · intro hnd
    rw [specCeilDiv_not_dvd ht r hr hnd]; rfl
  · intro hd
    rw [specCeilDiv_dvd ht r hr hd]; rfl

/-- Witness for the amended C7 at the configured world size. -/
theorem grid_dims_witness :
    (PheromoneSystem.init WORLD_WIDTH WORLD_HEIGHT 10).grid_width = WORLD_WIDTH / 10 + 1 ∧
    (PheromoneSystem.init WORLD_WIDTH WORLD_HEIGHT 10).grid_height = WORLD_HEIGHT / 10 + 1 ∧
    (¬ 10 ∣ WORLD_WIDTH →
      (PheromoneSystem.init WORLD_WIDTH WORLD_HEIGHT 10).grid_width = specCeilDiv WORLD_WIDTH 10) ∧
    (10 ∣ WORLD_WIDTH →
      (PheromoneSystem.init WORLD_WIDTH WORLD_HEIGHT 10).grid_width = specCeilDiv WORLD_WIDTH 10 + 1) ∧
    (¬ 10 ∣ WORLD_HEIGHT →
      (PheromoneSystem.init WORLD_WIDTH WORLD_HEIGHT 10).grid_height = specCeilDiv WORLD_HEIGHT 10) ∧
    (10 ∣ WORLD_HEIGHT →
      (PheromoneSystem.init WORLD_WIDTH WORLD_HEIGHT 10).grid_height = specCeilDiv WORLD_HEIGHT 10 + 1) :=
  grid_dims WORLD_WIDTH WORLD_HEIGHT 10 (by decide)

-- C8 — spawning gate.

/-- C8 counterexample: with the store exactly at the spawn cost (100) and
room in the colony, neither `spawn_new_ants` nor a full `Colony.update`
step spawns an ant — the source gate is the strict `>`, so the claimed
`≥` trigger fails at equality. -/
theorem C8_counterexample :
    colonyAt100.food_collected = ANT_ENERGY_FROM_FOOD ∧
    colonyAt100.ants.length < MAX_COLONY_SIZE ∧
    colonyAt100.spawn_new_ants = colonyAt100 ∧
    (Colony.update id 0 0 colonyAt100).ants.length = colonyAt100.ants.length := by
  refine ⟨rfl, by norm_num [colonyAt100, colonyEx, MAX_COLONY_SIZE], rfl, ?_⟩
  norm_num [Colony.update, Colony.process_dead_ants, Colony.spawn_new_ants,
    colonyAt100, colonyEx, Ant.init, nestEx, Nest.init,
    ANT_ENERGY_FROM_FOOD, MAX_COLONY_SIZE]

/-- C8 (amended): in every colony step a new default-brained ant is spawned
whenever the accumulated food store is strictly greater than the per-spawn
cost `ANT_ENERGY_FROM_FOOD` and the population is below the maximum; each
spawn decrements the store by exactly that cost and increments the birth
counter by one, and when the gate fails the colony state is untouched. -/
theorem spawn_new_ants_gate (c : Colony) :
    (ANT_ENERGY_FROM_FOOD < c.food_collected → c.ants.length < MAX_COLONY_SIZE →
      c.spawn_new_ants.ants.length = c.ants.length + 1 ∧
      c.spawn_new_ants.food_collected = c.food_collected - ANT_ENERGY_FROM_FOOD ∧
      c.spawn_new_ants.ants_born = c.ants_born + 1) ∧
    (¬ (ANT_ENERGY_FROM_FOOD < c.food_collected ∧ c.ants.length < MAX_COLONY_SIZE) →
      c.spawn_new_ants = c) := by
  constructor
  · intro h1 h2
    unfold Colony.spawn_new_ants
    rw [if_pos ⟨h1, h2⟩]
    refine ⟨?_, rfl, rfl⟩
    simp
  · intro hng
    unfold Colony.spawn_new_ants
    rw [if_neg hng]

-- C1 — population bound.

/-- C1: from any colony state with at most `MAX_COLONY_SIZE` ants, both
operations that can add agents — a full `Colony.update` step (which spawns
via `spawn_new_ants`) and `EvolutionManager.evolve_generation` — leave the
roster size at most `MAX_COLONY_SIZE`, regardless of how much food has
been stored. -/
theorem colony_population_bound (antUpd : Ant → Ant) (foodDelta : ℚ)
    (deliveries : ℕ) (offspring : ℕ → Ant) (c : Colony)
    (hc : c.ants.length ≤ MAX_COLONY_SIZE) :
    (Colony.update antUpd foodDelta deliveries c).ants.length ≤ MAX_COLONY_SIZE ∧
    (evolve_generation offspring c).ants.length ≤ MAX_COLONY_SIZE := by
  constructor
  · unfold Colony.update
    dsimp only
    apply spawn_new_ants_length_le
    refine le_trans (process_dead_ants_length_le _) ?_
    simpa using hc
  · rw [evolve_generation_length]
    exact hc

/-- Witness for C1 at a concrete colony of one ant. -/
theorem colony_population_bound_witness :
    (Colony.update id 0 0 colonyAt100).ants.length ≤ MAX_COLONY_SIZE ∧
    (evolve_generation (fun _ => antEx) colonyAt100).ants.length ≤ MAX_COLONY_SIZE :=
  colony_population_bound id 0 0 (fun _ => antEx) colonyAt100
    (by norm_num [colonyAt100, colonyEx, MAX_COLONY_SIZE])

-- C3 — pheromone field under update.

theorem channelUpdate_rate_bound (W H : ℕ) (g : ℕ → ℕ → ℚ) (M : ℚ)
    (hM : ∀ i j, g i j ≤ M) (i j : ℕ) :
    channelUpdate W H g i j ≤ PHEROMONE_EVAPORATION_RATE * M := by
  unfold channelUpdate
  dsimp only
  rw [if_pos (show (0:ℚ) < PHEROMONE_DIFFUSION by norm_num [PHEROMONE_DIFFUSION])]
  split
  · have a0 := hM i j
    have a1 := hM (i-1) j
    have a2 := hM (i+1) j
    have a3 := hM i (j-1)
    have a4 := hM i (j+1)
    simp only [PHEROMONE_EVAPORATION_RATE, PHEROMONE_DIFFUSION]
    linarith
  · have a0 := hM i j
    simp only [PHEROMONE_EVAPORATION_RATE]
    linarith

theorem channelUpdate_border_le (W H : ℕ) (g : ℕ → ℕ → ℚ)
    (h0 : ∀ i j, 0 ≤ g i j) (i j : ℕ)
    (hb : ¬ (1 ≤ i ∧ i < W - 1 ∧ 1 ≤ j ∧ j < H - 1)) :
    channelUpdate W H g i j ≤ g i j := by
  unfold channelUpdate
  dsimp only
  rw [if_pos (show (0:ℚ) < PHEROMONE_DIFFUSION by norm_num [PHEROMONE_DIFFUSION]),
    if_neg hb]
  have := h0 i j
  simp only [PHEROMONE_EVAPORATION_RATE]
  linarith

/-- C3 counterexample: a non-negative field (100 units in cell `(0,1)` of
the food channel, zero elsewhere, on the 4×4 grid of a 30×30 world at
resolution 10) in which one `update()` call with no intervening deposits
strictly increases interior cell `(1,1)` — diffusion pulls mass in from
the richer neighbor, so per-cell monotonicity fails with a positive
diffusion coefficient. -/
theorem C3_counterexample :
    (∀ i j, 0 ≤ pheroEx.food i j) ∧ (∀ i j, 0 ≤ pheroEx.home i j) ∧
    ¬ (pheroEx.update.food 1 1 ≤ pheroEx.food 1 1) := by
  refine ⟨?_, ?_, ?_⟩
  · intro i j
    unfold pheroEx pheroGridEx
    dsimp only
    split <;> norm_num
  · intro i j
    norm_num [pheroEx, PheromoneSystem.init]
  · unfold PheromoneSystem.update pheroEx pheroGridEx PheromoneSystem.grid_width
      PheromoneSystem.grid_height gridWidth gridHeight PheromoneSystem.init channelUpdate
    norm_num [PHEROMONE_EVAPORATION_RATE, PHEROMONE_DIFFUSION]

/-- C3 (amended): with the configured positive diffusion constant an
individual interior cell can increase after `update()` (see the
counterexample); what does hold for every channel of every field state
with cells in `[0, M]` is that `update()` keeps every cell at most
`PHEROMONE_EVAPORATION_RATE * M` — the running maximum shrinks by the
evaporation factor each step — and that every cell outside the diffusion
interior (the border rows and columns) is pointwise non-increasing. -/
theorem pheromone_update_bounds (p : PheromoneSystem) (M : ℚ)
    (hf0 : ∀ i j, 0 ≤ p.food i j) (hfM : ∀ i j, p.food i j ≤ M)
    (hh0 : ∀ i j, 0 ≤ p.home i j) (hhM : ∀ i j, p.home i j ≤ M) :
    (∀ i j, p.update.food i j ≤ PHEROMONE_EVAPORATION_RATE * M) ∧
    (∀ i j, p.update.home i j ≤ PHEROMONE_EVAPORATION_RATE * M) ∧
    (∀ i j, ¬ (1 ≤ i ∧ i < p.grid_width - 1 ∧ 1 ≤ j ∧ j < p.grid_height - 1) →
      p.update.food i j ≤ p.food i j ∧ p.update.home i j ≤ p.home i j) := by
  refine ⟨?_, ?_, ?_⟩
  · intro i j
    exact channelUpdate_rate_bound _ _ _ M hfM i j
  · intro i j
    exact channelUpdate_rate_bound _ _ _ M hhM i j
  · intro i j hb
    exact ⟨channelUpdate_border_le _ _ _ hf0 i j hb,
      channelUpdate_border_le _ _ _ hh0 i j hb⟩

/-- Witness for the amended C3 on a constant-7 food field. -/
theorem pheromone_update_bounds_witness :
    (∀ i j,
      ({ PheromoneSystem.init 30 30 10 with food := fun _ _ => 7 } :
          PheromoneSystem).update.food i j ≤ PHEROMONE_EVAPORATION_RATE * 7) ∧
    (∀ i j,
      ({ PheromoneSystem.init 30 30 10 with food := fun _ _ => 7 } :
          PheromoneSystem).update.home i j ≤ PHEROMONE_EVAPORATION_RATE * 7) ∧
    (∀ i j, ¬ (1 ≤ i ∧
        i < ({ PheromoneSystem.init 30 30 10 with food := fun _ _ => 7 } :
          PheromoneSystem).grid_width - 1 ∧ 1 ≤ j ∧
        j < ({ PheromoneSystem.init 30 30 10 with food := fun _ _ => 7 } :
          PheromoneSystem).grid_height - 1) →
      ({ PheromoneSystem.init 30 30 10 with food := fun _ _ => 7 } :
          PheromoneSystem).update.food i j ≤
        ({ PheromoneSystem.init 30 30 10 with food := fun _ _ => 7 } :
          PheromoneSystem).food i j ∧
      ({ PheromoneSystem.init 30 30 10 with food := fun _ _ => 7 } :
          PheromoneSystem).update.home i j ≤
        ({ PheromoneSystem.init 30 30 10 with food := fun _ _ => 7 } :
          PheromoneSystem).home i j) :=
  pheromone_update_bounds _ 7 (fun _ _ => by norm_num)
    (fun _ _ => by norm_num) (fun _ _ => by norm_num [PheromoneSystem.init])
    (fun _ _ => by norm_num [PheromoneSystem.init])

-- C2 — crossover shape law and provenance.

theorem range_map_getD {β : Type} (n : ℕ) (f : ℕ → β) (i : ℕ) (d : β) :
    ((List.range n).map f).getD i d = if i < n then f i else d := by
  by_cases h : i < n
  · rw [if_pos h,
      List.getD_eq_getElem _ _ (by simpa using h),
      List.getElem_map, List.getElem_range]
  · rw [if_neg h, List.getD_eq_default _ _ (by simpa using Nat.le_of_not_lt h)]

theorem npWhere1_nil_mask (a b : List ℚ) : npWhere1 [] a b = [] := by
  cases a <;> cases b <;> rfl

theorem npWhere1_nil_mid (m : List Bool) (b : List ℚ) : npWhere1 m [] b = [] := by
  cases m <;> cases b <;> rfl

theorem npWhere1_nil_right (m : List Bool) (a : List ℚ) : npWhere1 m a [] = [] := by
  cases m <;> cases a <;> rfl

theorem npWhere1_length (m : List Bool) (a b : List ℚ) :
    (npWhere1 m a b).length = min m.length (min a.length b.length) := by
  induction m generalizing a b with
  | nil => simp [npWhere1_nil_mask]
  | cons mh mt ih =>
    cases a with
    | nil => simp [npWhere1_nil_mid]
    | cons ah a2 =>
      cases b with
      | nil => simp [npWhere1_nil_right]
      | cons bh b2 =>
        simp only [npWhere1, List.length_cons, ih]
        omega

theorem npWhere1_getD_or (m : List Bool) (a b : List ℚ) (i : ℕ)
    (h : i < (npWhere1 m a b).length) :
    (npWhere1 m a b).getD i 0 = a.getD i 0 ∨
      (npWhere1 m a b).getD i 0 = b.getD i 0 := by
  induction m generalizing a b i with
  | nil => simp [npWhere1_nil_mask] at h
  | cons mh mt ih =>
    cases a with
    | nil => simp [npWhere1_nil_mid] at h
    | cons ah a2 =>
      cases b with
      | nil => simp [npWhere1_nil_right] at h
      | cons bh b2 =>
        match i with
        | 0 =>
          by_cases hm : mh
          · left
            simp [npWhere1, hm]
          · right
            simp [npWhere1, hm]
        | i+1 =>
          have h' : i < (npWhere1 mt a2 b2).length := by
            simpa [npWhere1] using h
          have hor := ih a2 b2 i h'
          simpa [npWhere1, List.getD_cons_succ] using hor

theorem npWhere2_getD_row (m : List (List Bool)) (A B : List (List ℚ)) (r : ℕ) :
    (npWhere2 m A B).getD r [] =
      npWhere1 (m.getD r []) (A.getD r []) (B.getD r []) := by
  induction m generalizing A B r with
  | nil => simp [npWhere2, npWhere1_nil_mask]
  | cons mh mt ih =>
    cases A with
    | nil => simp [npWhere2, npWhere1_nil_mid]
    | cons ah A2 =>
      cases B with
      | nil => simp [npWhere2, npWhere1_nil_right]
      | cons bh B2 =>
        match r with
        | 0 => rfl
        | r+1 =>
          simpa [npWhere2, List.getD_cons_succ] using ih A2 B2 r

theorem npWhere2_length (m : List (List Bool)) (A B : List (List ℚ)) :
    (npWhere2 m A B).length = min m.length (min A.length B.length) := by
  induction m generalizing A B with
  | nil =>
    cases A <;> cases B <;> simp [npWhere2]
  | cons mh mt ih =>
    cases A with
    | nil => simp [npWhere2]
    | cons ah A2 =>
      cases B with
      | nil => simp [npWhere2]
      | cons bh B2 =>
        simp only [npWhere2, List.length_cons, ih]
        omega

theorem maskOfLen_length (bit : ℕ → Bool) (a : List ℚ) :
    (maskOfLen bit a).length = a.length := by
  simp [maskOfLen]

theorem maskOfShape_length (bit : ℕ → ℕ → Bool) (A : List (List ℚ)) :
    (maskOfShape bit A).length = A.length := by
  simp [maskOfShape]

theorem maskOfShape_getD (bit : ℕ → ℕ → Bool) (A : List (List ℚ)) (r : ℕ) :
    (maskOfShape bit A).getD r [] =
      if r < A.length then maskOfLen (bit r) (A.getD r []) else [] := by
  unfold maskOfShape
  exact range_map_getD _ _ _ _

theorem init_weights_length (ins : ℕ) (hs : List ℕ) (outs : ℕ)
    (rand : ℕ → ℕ → ℕ → ℚ) :
    (NeuralNetwork.init ins hs outs rand).weights.length = hs.length + 1 := by
  simp [NeuralNetwork.init, layerSizes]

theorem init_biases_length (ins : ℕ) (hs : List ℕ) (outs : ℕ)
    (rand : ℕ → ℕ → ℕ → ℚ) :
    (NeuralNetwork.init ins hs outs rand).biases.length = hs.length + 1 := by
  simp [NeuralNetwork.init, layerSizes]

theorem crossover_weights_getD (p q : NeuralNetwork)
    (wbit : ℕ → ℕ → ℕ → Bool) (bbit : ℕ → ℕ → Bool) (rand : ℕ → ℕ → ℕ → ℚ)
    (hpw : p.weights.length = p.hidden_sizes.length + 1) (l : ℕ) :
    (p.crossover q wbit bbit rand).weights.getD l [] =
      if l < p.weights.length then
        npWhere2 (maskOfShape (wbit l) (p.weights.getD l []))
          (p.weights.getD l []) (q.weights.getD l [])
      else [] := by
  unfold NeuralNetwork.crossover
  dsimp only
  rw [range_map_getD, init_weights_length, ← hpw]
  by_cases h : l < p.weights.length <;> simp [h]

theorem crossover_biases_getD (p q : NeuralNetwork)
    (wbit : ℕ → ℕ → ℕ → Bool) (bbit : ℕ → ℕ → Bool) (rand : ℕ → ℕ → ℕ → ℚ)
    (hpw : p.weights.length = p.hidden_sizes.length + 1) (l : ℕ) :
    (p.crossover q wbit bbit rand).biases.getD l [] =
      if l < p.weights.length then
        npWhere1 (maskOfLen (bbit l) (p.biases.getD l []))
          (p.biases.getD l []) (q.biases.getD l [])
      else [] := by
  unfold NeuralNetwork.crossover
  dsimp only
  rw [range_map_getD, init_biases_length, ← hpw]
  by_cases h : l < p.weights.length <;> simp [h]

theorem crossover_weights_length (p q : NeuralNetwork)
    (wbit : ℕ → ℕ → ℕ → Bool) (bbit : ℕ → ℕ → Bool) (rand : ℕ → ℕ → ℕ → ℚ) :
    (p.crossover q wbit bbit rand).weights.length = p.hidden_sizes.length + 1 := by
  unfold NeuralNetwork.crossover
  dsimp only
  rw [List.length_map, List.length_range, init_weights_length]

theorem crossover_biases_length (p q : NeuralNetwork)
    (wbit : ℕ → ℕ → ℕ → Bool) (bbit : ℕ → ℕ → Bool) (rand : ℕ → ℕ → ℕ → ℚ) :
    (p.crossover q wbit bbit rand).biases.length = p.hidden_sizes.length + 1 := by
  unfold NeuralNetwork.crossover
  dsimp only
  rw [List.length_map, List.length_range, init_biases_length]

/-- C2: for two parents of identical declared topology satisfying the
constructor's shape discipline, `crossover` (with any mask draws and any
child initialization draws) returns a child of that same topology whose
every weight matrix and bias vector has exactly the shape of the
corresponding parent arrays, and whose every entry equals the
corresponding entry of one parent or the other. The embedding is
functional, so the parents' arrays are returned untouched — matching the
source, where `np.where` allocates fresh arrays for the new child and
never writes into either parent. -/
theorem crossover_shape_provenance (p q : NeuralNetwork)
    (wbit : ℕ → ℕ → ℕ → Bool) (bbit : ℕ → ℕ → Bool) (rand : ℕ → ℕ → ℕ → ℚ)
    (hin : q.input_size = p.input_size) (hhid : q.hidden_sizes = p.hidden_sizes)
    (hout : q.output_size = p.output_size) (hp : p.wf) (hq : q.wf) :
    let child := p.crossover q wbit bbit rand
    (child.input_size = p.input_size ∧ child.hidden_sizes = p.hidden_sizes ∧
      child.output_size = p.output_size) ∧
    (child.weights.length = p.weights.length ∧
      child.weights.length = q.weights.length ∧
      child.biases.length = p.biases.length ∧
      child.biases.length = q.biases.length) ∧
    (∀ l, (child.weights.getD l []).length = (p.weights.getD l []).length ∧
      (child.weights.getD l []).length = (q.weights.getD l []).length) ∧
    (∀ l r, ((child.weights.getD l []).getD r []).length =
        ((p.weights.getD l []).getD r []).length ∧
      ((child.weights.getD l []).getD r []).length =
        ((q.weights.getD l []).getD r []).length) ∧
    (∀ l, (child.biases.getD l []).length = (p.biases.getD l []).length ∧
      (child.biases.getD l []).length = (q.biases.getD l []).length) ∧
    (∀ l r c, wElt child l r c = wElt p l r c ∨ wElt child l r c = wElt q l r c) ∧
    (∀ l j, bElt child l j = bElt p l j ∨ bElt child l j = bElt q l j) := by
  intro child
  obtain ⟨hpw, hpb, hpr, hpc, hpbl⟩ := hp
  obtain ⟨hqw, hqb, hqr, hqc, hqbl⟩ := hq
  simp [layerSizes] at hpw hpb hqw hqb
  have hPL : p.weights.length = p.hidden_sizes.length + 1 := by omega
  have hQL : q.weights.length = p.hidden_sizes.length + 1 := by
    rw [hhid] at hqw
    omega
  have hPBL : p.biases.length = p.hidden_sizes.length + 1 := by omega
  have hQBL : q.biases.length = p.hidden_sizes.length + 1 := by
    rw [hhid] at hqb
    omega
  have hsz : layerSizes q.input_size q.hidden_sizes q.output_size =
      layerSizes p.input_size p.hidden_sizes p.output_size := by
    rw [hin, hhid, hout]
  rw [hsz] at hqr hqc hqbl
  have hCW : child.weights.length = p.hidden_sizes.length + 1 :=
    crossover_weights_length p q wbit bbit rand
  have hCB : child.biases.length = p.hidden_sizes.length + 1 :=
    crossover_biases_length p q wbit bbit rand
  have hWget := crossover_weights_getD p q wbit bbit rand hPL
  have hBget := crossover_biases_getD p q wbit bbit rand hPL
  -- row-count equality for every layer index
  have hrows : ∀ l, (child.weights.getD l []).length = (p.weights.getD l []).length ∧
      (child.weights.getD l []).length = (q.weights.getD l []).length := by
    intro l
    by_cases hl : l < p.weights.length
    · have hql : l < q.weights.length := by omega
      have h1 := hpr l hl
      have h2 := hqr l hql
      rw [hWget l, if_pos hl, npWhere2_length, maskOfShape_length]
      omega
    · have hql : ¬ l < q.weights.length := by omega
      rw [hWget l, if_neg hl,
        List.getD_eq_default _ _ (show p.weights.length ≤ l by omega),
        List.getD_eq_default _ _ (show q.weights.length ≤ l by omega)]
      simp
  have hcols : ∀ l r, ((child.weights.getD l []).getD r []).length =
      ((p.weights.getD l []).getD r []).length ∧
      ((child.weights.getD l []).getD r []).length =
      ((q.weights.getD l []).getD r []).length := by
    intro l r
    by_cases hl : l < p.weights.length
    · have hql : l < q.weights.length := by omega
      have hrowlen := hpr l hl
      have hrowlenq := hqr l hql
      rw [hWget l, if_pos hl, npWhere2_getD_row, maskOfShape_getD]
      by_cases hr : r < (p.weights.getD l []).length
      · have hrq : r < (q.weights.getD l []).length := by omega
        have h1 := hpc l hl r hr
        have h2 := hqc l hql r hrq
        rw [if_pos hr, npWhere1_length, maskOfLen_length]
        omega
      · have hrq : ¬ r < (q.weights.getD l []).length := by omega
        rw [if_neg hr, npWhere1_nil_mask,
          List.getD_eq_default _ _ (show (p.weights.getD l []).length ≤ r by omega),
          List.getD_eq_default _ _ (show (q.weights.getD l []).length ≤ r by omega)]
        simp
    · have hql : ¬ l < q.weights.length := by omega
      rw [hWget l, if_neg hl,
        List.getD_eq_default _ _ (show p.weights.length ≤ l by omega),
        List.getD_eq_default _ _ (show q.weights.length ≤ l by omega)]
      simp
  have hblen : ∀ l, (child.biases.getD l []).length = (p.biases.getD l []).length ∧
      (child.biases.getD l []).length = (q.biases.getD l []).length := by
    intro l
    by_cases hl : l < p.weights.length
    · have hbl : l < p.biases.length := by omega
      have hbq : l < q.biases.length := by omega
      have h1 := hpbl l hbl
      have h2 := hqbl l hbq
      rw [hBget l, if_pos hl, npWhere1_length, maskOfLen_length]
      omega
    · rw [hBget l, if_neg hl,
        List.getD_eq_default _ _ (show p.biases.length ≤ l by omega),
        List.getD_eq_default _ _ (show q.biases.length ≤ l by omega)]
      simp
  refine ⟨⟨rfl, rfl, rfl⟩, ⟨by omega, by omega, by omega, by omega⟩,
    hrows, hcols, hblen, ?_, ?_⟩
  · intro l r c
    unfold wElt
    by_cases hl : l < p.weights.length
    · rw [hWget l, if_pos hl, npWhere2_getD_row, maskOfShape_getD]
      by_cases hr : r < (p.weights.getD l []).length
      · rw [if_pos hr]
        by_cases hc : c < (npWhere1 (maskOfLen (wbit l r) ((p.weights.getD l []).getD r []))
            ((p.weights.getD l []).getD r []) ((q.weights.getD l []).getD r [])).length
        · exact npWhere1_getD_or _ _ _ c hc
        · have hql : l < q.weights.length := by omega
          have hr1 := hpr l hl
          have hr2 := hqr l hql
          have hrq : r < (q.weights.getD l []).length := by omega
          have h1 := hpc l hl r hr
          have h2 := hqc l hql r hrq
          have hlen : (npWhere1 (maskOfLen (wbit l r) ((p.weights.getD l []).getD r []))
              ((p.weights.getD l []).getD r []) ((q.weights.getD l []).getD r [])).length =
              ((p.weights.getD l []).getD r []).length := by
            rw [npWhere1_length, maskOfLen_length]
            omega
          left
          rw [List.getD_eq_default _ _
              (show (npWhere1 (maskOfLen (wbit l r) ((p.weights.getD l []).getD r []))
                ((p.weights.getD l []).getD r []) ((q.weights.getD l []).getD r [])).length ≤ c
               by omega),
            List.getD_eq_default _ _
              (show ((p.weights.getD l []).getD r []).length ≤ c by omega)]
      · rw [if_neg hr, npWhere1_nil_mask]
        left
        rw [List.getD_eq_default _ _ (show (p.weights.getD l []).length ≤ r by omega)]
    · rw [hWget l, if_neg hl,
        List.getD_eq_default _ _ (show p.weights.length ≤ l by omega)]
      left
      rfl
  · intro l j
    unfold bElt
    by_cases hl : l < p.weights.length
    · rw [hBget l, if_pos hl]
      by_cases hc : j < (npWhere1 (maskOfLen (bbit l) (p.biases.getD l []))
          (p.biases.getD l []) (q.biases.getD l [])).length
      · exact npWhere1_getD_or _ _ _ j hc
      · have hbl : l < p.biases.length := by omega
        have hbq : l < q.biases.length := by omega
        have h1 := hpbl l hbl
        have h2 := hqbl l hbq
        have hlen : (npWhere1 (maskOfLen (bbit l) (p.biases.getD l []))
            (p.biases.getD l []) (q.biases.getD l [])).length =
            (p.biases.getD l []).length := by
          rw [npWhere1_length, maskOfLen_length]
          omega
        left
        rw [List.getD_eq_default _ _
            (show (npWhere1 (maskOfLen (bbit l) (p.biases.getD l []))
              (p.biases.getD l []) (q.biases.getD l [])).length ≤ j by omega),
          List.getD_eq_default _ _ (show (p.biases.getD l []).length ≤ j by omega)]
    · rw [hBget l, if_neg hl,
        List.getD_eq_default _ _ (show p.biases.length ≤ l by omega)]
      left
      rfl

/-- Witness for C2 on the concrete parents `netP` and `netQ` (topology
2-[2]-1), an all-true weight mask and an all-false bias mask. -/
theorem crossover_shape_provenance_witness :
    let child := netP.crossover netQ (fun _ _ _ => true) (fun _ _ => false)
      (fun _ _ _ => 0)
    (child.input_size = netP.input_size ∧ child.hidden_sizes = netP.hidden_sizes ∧
      child.output_size = netP.output_size) ∧
    (child.weights.length = netP.weights.length ∧
      child.weights.length = netQ.weights.length ∧
      child.biases.length = netP.biases.length ∧
      child.biases.length = netQ.biases.length) ∧
    (∀ l, (child.weights.getD l []).length = (netP.weights.getD l []).length ∧
      (child.weights.getD l []).length = (netQ.weights.getD l []).length) ∧
    (∀ l r, ((child.weights.getD l []).getD r []).length =
        ((netP.weights.getD l []).getD r []).length ∧
      ((child.weights.getD l []).getD r []).length =
        ((netQ.weights.getD l []).getD r []).length) ∧
    (∀ l, (child.biases.getD l []).length = (netP.biases.getD l []).length ∧
      (child.biases.getD l []).length = (netQ.biases.getD l []).length) ∧
    (∀ l r c, wElt child l r c = wElt netP l r c ∨ wElt child l r c = wElt netQ l r c) ∧
    (∀ l j, bElt child l j = bElt netP l j ∨ bElt child l j = bElt netQ l j) :=
  crossover_shape_provenance netP netQ (fun _ _ _ => true) (fun _ _ => false)
    (fun _ _ _ => 0) rfl rfl rfl
    (by unfold NeuralNetwork.wf; decide)
    (by unfold NeuralNetwork.wf; decide)

-- C4 — weight payload round trip.

/-- C4: installing the weight payload exported by `get_weights` — exactly
the record `save` pickles to disk and `load` reads back — into any freshly
constructed network yields a network whose `forward` output is identical
to the original network's on every input. -/
theorem get_set_weights_forward_roundtrip (orig fresh : NeuralNetwork)
    (x : List ℚ) :
    (fresh.set_weights orig.get_weights).forward x = orig.forward x := rfl

-- C6 — shape mismatches are silently coerced, not rejected.

/-- C6 evaluated on the code: the source does not fail fast on shape
mismatches. `MLAgent.process` silently pads a 14-element input with a zero
and truncates a 16-element input to the expected 15, and
`NeuralNetwork.set_weights` installs a payload whose shapes do not match
`netP`'s 2-[2]-1 topology verbatim, with no validation — the silent
pad/truncate fallback the spec flags as a latent correctness bug. -/
theorem adjust_inputs_silent_coercion :
    adjust_inputs 15 [1, 2, 3, 4, 5, 6, 7, 8, 9, 10, 11, 12, 13, 14] =
      [1, 2, 3, 4, 5, 6, 7, 8, 9, 10, 11, 12, 13, 14, 0] ∧
    adjust_inputs 15 [1, 2, 3, 4, 5, 6, 7, 8, 9, 10, 11, 12, 13, 14, 15, 16] =
      [1, 2, 3, 4, 5, 6, 7, 8, 9, 10, 11, 12, 13, 14, 15] ∧
    (netP.set_weights ([[[1, 2], [3, 4]]], [[5, 6]])).weights = [[[1, 2], [3, 4]]] ∧
    (netP.set_weights ([[[1, 2], [3, 4]]], [[5, 6]])).biases = [[5, 6]] :=
  ⟨rfl, rfl, rfl, rfl⟩

-- C9 — tournament selection.

theorem argmaxAux_spec (vs : List ℚ) :
    ∀ (g : ℕ → ℚ) (i bi : ℕ) (bv : ℚ),
      (∀ k, k < vs.length → vs.getD k 0 = g (i + k)) → g bi = bv →
      (argmaxAux vs i bi bv = bi ∨
        (i ≤ argmaxAux vs i bi bv ∧ argmaxAux vs i bi bv < i + vs.length)) ∧
      bv ≤ g (argmaxAux vs i bi bv) ∧
      (∀ k, k < vs.length → vs.getD k 0 ≤ g (argmaxAux vs i bi bv)) := by
  induction vs with
  | nil =>
    intro g i bi bv hg hbi
    refine ⟨Or.inl rfl, ?_, ?_⟩
    · simpa [argmaxAux] using le_of_eq hbi.symm
    · intro k hk
      simp at hk
  | cons v vs ih =>
    intro g i bi bv hg hbi
    have hv : g i = v := by
      have h0 := hg 0 (by simp)
      simpa using h0.symm
    have hg' : ∀ k, k < vs.length → vs.getD k 0 = g (i + 1 + k) := by
      intro k hk
      have h1 := hg (k+1) (by simpa using Nat.succ_lt_succ hk)
      have h2 : i + (k + 1) = i + 1 + k := by omega
      simpa [List.getD_cons_succ, h2] using h1
    by_cases hlt : bv < v
    · have hstep : argmaxAux (v :: vs) i bi bv = argmaxAux vs (i+1) i v := by
        simp [argmaxAux, hlt]
      obtain ⟨hr, hval, hall⟩ := ih g (i+1) i v hg' hv
      refine ⟨?_, ?_, ?_⟩
      · rw [hstep]
        rcases hr with h | h
        · right
          rw [h]
          simp
        · right
          simp only [List.length_cons]
          omega
      · rw [hstep]
        exact le_trans (le_of_lt hlt) hval
      · intro k hk
        rw [hstep]
        match k with
        | 0 => simpa using hval
        | k+1 =>
          have := hall k (by simpa using Nat.lt_of_succ_lt_succ hk)
          simpa using this
    · have hstep : argmaxAux (v :: vs) i bi bv = argmaxAux vs (i+1) bi bv := by
        simp [argmaxAux, hlt]
      obtain ⟨hr, hval, hall⟩ := ih g (i+1) bi bv hg' hbi
      refine ⟨?_, ?_, ?_⟩
      · rw [hstep]
        rcases hr with h | h
        · exact Or.inl h
        · right
          simp only [List.length_cons]
          omega
      · rw [hstep]
        exact hval
      · intro k hk
        rw [hstep]
        match k with
        | 0 =>
          have hvb : v ≤ bv := le_of_not_lt hlt
          simpa using le_trans hvb hval
        | k+1 =>
          have := hall k (by simpa using Nat.lt_of_succ_lt_succ hk)
          simpa using this

theorem npArgmax_spec (l : List ℚ) (hne : l ≠ []) :
    npArgmax l < l.length ∧
    ∀ k, k < l.length → l.getD k 0 ≤ l.getD (npArgmax l) 0 := by
  match l with
  | [] => exact absurd rfl hne
  | v :: vs =>
    have hg : ∀ k, k < vs.length → vs.getD k 0 = (v :: vs).getD (1 + k) 0 := by
      intro k hk
      have h2 : 1 + k = k + 1 := by omega
      rw [h2, List.getD_cons_succ]
    have hbi : (v :: vs).getD 0 0 = v := rfl
    obtain ⟨hr, hval, hall⟩ :=
      argmaxAux_spec vs (fun k => (v :: vs).getD k 0) 1 0 v hg hbi
    have heq : npArgmax (v :: vs) = argmaxAux vs 1 0 v := rfl
    constructor
    · rw [heq]
      rcases hr with h | h
      · rw [h]; simp
      · simp only [List.length_cons]; omega
    · intro k hk
      rw [heq]
      match k with
      | 0 => exact hval
      | k+1 =>
        have hk' : k < vs.length := by simpa using Nat.lt_of_succ_lt_succ hk
        have := hall k hk'
        rw [List.getD_cons_succ]
        exact this

/-- C9: the tournament of `select_parents` returns the population member at
a sampled index whose fitness is maximal within the sample; consequently
an index of globally lowest fitness is never the winner whenever its
sample contains an index of strictly higher fitness. -/
theorem tournament_winner_max (population : List Ant) (fitnesses : List ℚ)
    (tournament_indices : List ℕ) (hne : tournament_indices ≠ []) :
    tournamentWinnerIdx fitnesses tournament_indices ∈ tournament_indices ∧
    (∀ j ∈ tournament_indices,
      fitnesses.getD j 0 ≤
        fitnesses.getD (tournamentWinnerIdx fitnesses tournament_indices) 0) ∧
    (∀ iLow ∈ tournament_indices,
      (∃ j ∈ tournament_indices, fitnesses.getD iLow 0 < fitnesses.getD j 0) →
      tournamentWinnerIdx fitnesses tournament_indices ≠ iLow) ∧
    select_one population fitnesses tournament_indices =
      population.getD (tournamentWinnerIdx fitnesses tournament_indices) default := by
  have htne : tournament_indices.map (fun i => fitnesses.getD i 0) ≠ [] := by
    cases tournament_indices with
    | nil => exact absurd rfl hne
    | cons a l => simp
  obtain ⟨hm, hmax⟩ := npArgmax_spec _ htne
  rw [List.length_map] at hm
  have hwin : tournamentWinnerIdx fitnesses tournament_indices =
      tournament_indices[npArgmax (tournament_indices.map (fun i => fitnesses.getD i 0))] := by
    unfold tournamentWinnerIdx
    exact List.getD_eq_getElem _ _ hm
  have hwf : fitnesses.getD (tournamentWinnerIdx fitnesses tournament_indices) 0 =
      (tournament_indices.map (fun i => fitnesses.getD i 0)).getD
        (npArgmax (tournament_indices.map (fun i => fitnesses.getD i 0))) 0 := by
    rw [hwin,
      List.getD_eq_getElem (tournament_indices.map (fun i => fitnesses.getD i 0)) 0
        (by simpa using hm),
      List.getElem_map]
  have hmemb : tournamentWinnerIdx fitnesses tournament_indices ∈ tournament_indices := by
    rw [hwin]
    exact List.getElem_mem hm
  have hmax' : ∀ j ∈ tournament_indices,
      fitnesses.getD j 0 ≤
        fitnesses.getD (tournamentWinnerIdx fitnesses tournament_indices) 0 := by
    intro j hj
    obtain ⟨k, hk, hkj⟩ := List.mem_iff_getElem.mp hj
    have h1 := hmax k (by simpa using hk)
    rw [List.getD_eq_getElem _ _ (by simpa using hk), List.getElem_map, hkj] at h1
    rw [hwf]
    exact h1
  refine ⟨hmemb, hmax', ?_, rfl⟩
  intro iLow hiLow hex heq
  obtain ⟨j, hj, hgt⟩ := hex
  have h1 := hmax' j hj
  rw [heq] at h1
  exact absurd (lt_of_lt_of_le hgt h1) (lt_irrefl _)

/-- Witness for C9 at fitnesses [1,5,9,2] with sample {0,2} (the spec's
Scenario C): the winner is a sampled index, and it is not the globally
lowest index 0, whose sample contains index 2 of fitness 9. -/
theorem tournament_winner_max_witness :
    tournamentWinnerIdx [1, 5, 9, 2] [0, 2] ∈ ([0, 2] : List ℕ) ∧
    tournamentWinnerIdx [1, 5, 9, 2] [0, 2] ≠ 0 := by
  have h := tournament_winner_max (List.replicate 4 default) [1, 5, 9, 2] [0, 2]
    (by simp)
  exact ⟨h.1, h.2.2.1 0 (by simp) ⟨2, by simp, by norm_num⟩⟩

-- C10 — pickup is a pure ant-state change; removal happens at delivery.

/-- C10: picking up food (the `apply_action` food block with the pickup
output above 0.5 and a source within pickup distance) sets the acting
ant's carrying flag and held-food reference but changes neither the colony
nor the environment — the food-source list, and with it every source's
energy, is untouched. Consequently the same `FoodSource` remains visible
between pickup and delivery, and a second non-carrying agent that scans
the post-pickup environment can pick up the very same source. The held
source is removed from the environment (and the colony credited) only on
a later step in which the carrying ant sits inside the nest radius. -/
theorem handle_food_pickup_frame (a : Ant) (c : Colony) (e : Env) (f : Food)
    (outputs : List ℚ)
    (ha : a.carrying_food = false)
    (hout : pickupFlag outputs = true)
    (hfind : firstFoodInReach e a.position = some f) :
    let r := a.handle_food (pickupFlag outputs) c e
    (r.1.carrying_food = true ∧ r.1.food_item = some f ∧
      r.1.position = a.position ∧ r.1.energy = a.energy ∧ r.1.alive = a.alive) ∧
    r.2.1 = c ∧ r.2.2 = e ∧
    (∀ b : Ant, b.carrying_food = false →
      firstFoodInReach r.2.2 b.position = some f →
      (b.handle_food true c r.2.2).1.carrying_food = true ∧
      (b.handle_food true c r.2.2).1.food_item = some f) ∧
    (∀ p' : Vec, ∀ pk : Bool, distLt p' c.nest.position NEST_RADIUS →
      (({ r.1 with position := p' } : Ant).handle_food pk c e).2.2 = e.remove_food f ∧
      (({ r.1 with position := p' } : Ant).handle_food pk c e).1.carrying_food = false ∧
      (({ r.1 with position := p' } : Ant).handle_food pk c e).1.food_item = none ∧
      (({ r.1 with position := p' } : Ant).handle_food pk c e).2.1 =
        c.add_food FOOD_ENERGY) := by
  intro r
  have hr1 : r.1 = { a with carrying_food := true, food_item := some f } := by
    show (a.handle_food (pickupFlag outputs) c e).1 = _
    simp [Ant.handle_food, ha, hout, hfind]
  have hr2 : r.2.1 = c := by
    show (a.handle_food (pickupFlag outputs) c e).2.1 = c
    simp [Ant.handle_food, ha, hout, hfind]
  have hr3 : r.2.2 = e := by
    show (a.handle_food (pickupFlag outputs) c e).2.2 = e
    simp [Ant.handle_food, ha, hout, hfind]
  refine ⟨⟨by simp [hr1], by simp [hr1], by simp [hr1], by simp [hr1], by simp [hr1]⟩,
    hr2, hr3, ?_, ?_⟩
  · intro b hb hbf
    rw [hr3] at hbf
    rw [hr3]
    constructor <;> simp [Ant.handle_food, hb, hbf]
  · intro p' pk hd
    refine ⟨?_, ?_, ?_, ?_⟩ <;> simp [Ant.handle_food, hr1, hd]

/-- Witness for C10: ant at the origin, environment of one food source at
the origin, nest at the origin, pickup output 1. -/
theorem handle_food_pickup_frame_witness :
    let r := antEx.handle_food (pickupFlag [0, 0, 0, 1]) colonyO envEx
    (r.1.carrying_food = true ∧ r.1.food_item = some foodEx ∧
      r.1.position = antEx.position ∧ r.1.energy = antEx.energy ∧
      r.1.alive = antEx.alive) ∧
    r.2.1 = colonyO ∧ r.2.2 = envEx ∧
    (∀ b : Ant, b.carrying_food = false →
      firstFoodInReach r.2.2 b.position = some foodEx →
      (b.handle_food true colonyO r.2.2).1.carrying_food = true ∧
      (b.handle_food true colonyO r.2.2).1.food_item = some foodEx) ∧
    (∀ p' : Vec, ∀ pk : Bool, distLt p' colonyO.nest.position NEST_RADIUS →
      (({ r.1 with position := p' } : Ant).handle_food pk colonyO envEx).2.2 =
        envEx.remove_food foodEx ∧
      (({ r.1 with position := p' } : Ant).handle_food pk colonyO envEx).1.carrying_food =
        false ∧
      (({ r.1 with position := p' } : Ant).handle_food pk colonyO envEx).1.food_item =
        none ∧
      (({ r.1 with position := p' } : Ant).handle_food pk colonyO envEx).2.1 =
        colonyO.add_food FOOD_ENERGY) :=
  handle_food_pickup_frame antEx colonyO envEx foodEx [0, 0, 0, 1] rfl
    (by norm_num [pickupFlag])
    (by norm_num [firstFoodInReach, envEx, foodEx, antEx, distLt, Vec.magSq,
      ANT_SIZE, FOOD_SIZE])

/-- Witness for the amended C8 at a store of 150 and one ant. -/
theorem spawn_new_ants_gate_witness :
    ({ colonyAt100 with food_collected := 150 } : Colony).spawn_new_ants.ants.length =
      ({ colonyAt100 with food_collected := 150 } : Colony).ants.length + 1 ∧
    ({ colonyAt100 with food_collected := 150 } : Colony).spawn_new_ants.food_collected =
      ({ colonyAt100 with food_collected := 150 } : Colony).food_collected - ANT_ENERGY_FROM_FOOD ∧
    ({ colonyAt100 with food_collected := 150 } : Colony).spawn_new_ants.ants_born =
      ({ colonyAt100 with food_collected := 150 } : Colony).ants_born + 1 :=
  (spawn_new_ants_gate _).1 (by norm_num [ANT_ENERGY_FROM_FOOD])
    (by norm_num [colonyAt100, colonyEx, MAX_COLONY_SIZE])

end AntColony
